import Mathlib

/-!
Verification of the secret-links SDK polling core: the adaptive interval
controller, the per-link poller state machine, the listener registry, and the
link-URL parser.  Definitions are shallow embeddings of the corresponding
TypeScript functions; theorems settle the specified properties.
-/

namespace SecretLinks

/-! ## Basic data model (types.ts) -/

/-- Channel kind of a link (`'ping' | 'webhook'`). -/
inductive LinkType where
  | ping
  | webhook
deriving DecidableEq

/-- `LinkStatus` from types.ts: `'active' | 'expired' | 'exhausted' | 'deleted'`. -/
inductive LinkStatus where
  | active
  | expired
  | exhausted
  | deleted
deriving DecidableEq

/-- `LinkInfo` from types.ts. -/
structure LinkInfo where
  isValid : Bool
  token : String
  type : LinkType
  hasPassword : Bool
  hasEncryption : Bool
  domain : String
  password : Option String
  encryptionKey : Option String
deriving DecidableEq

/-- `PayloadData` from types.ts (the `data` and `metadata` fields are opaque to
the core; we keep `data` as an uninterpreted string). -/
structure PayloadData where
  type : LinkType
  timestamp : ℕ
  data : String
deriving DecidableEq

/-- `PollResponse` from types.ts. -/
structure PollResponse where
  hasNewContent : Bool
  payload : Option PayloadData
  nextPollIn : Option ℚ
  error : Option String
  linkStatus : LinkStatus
deriving DecidableEq

/-- `PollerOptions` from types.ts (callbacks are modelled as emitted events,
see `PollEvent`). -/
structure PollerOptions where
  endpoint : String
  apiKey : Option String
  interval : ℚ
  debug : Bool
deriving DecidableEq

/-! ## AdaptivePoller (adaptive-poller.ts) -/

/-- State of the `AdaptivePoller` class. -/
structure AdaptivePoller where
  token : String
  baseInterval : ℚ
  currentInterval : ℚ
  backoffMultiplier : ℚ
  maxInterval : ℚ
  consecutiveEmpty : ℕ
deriving DecidableEq

/-- The `AdaptivePoller` constructor: the base interval is hardcoded from the
link type (10000 ms for ping, 60000 ms for webhook). -/
def AdaptivePoller.init (token : String) (type : LinkType) : AdaptivePoller :=
  let base : ℚ := match type with
    | .ping => 10000
    | .webhook => 60000
  { token := token, baseInterval := base, currentInterval := base,
    backoffMultiplier := 3/2, maxInterval := 300000, consecutiveEmpty := 0 }

/-- The local-heuristic part of `adjustInterval` (the branches taken when no
positive server suggestion is present). -/
def AdaptivePoller.adjustLocal (a : AdaptivePoller) (hasNewContent : Bool) :
    AdaptivePoller :=
  if hasNewContent then
    { a with currentInterval := a.baseInterval, consecutiveEmpty := 0 }
  else
    let c := a.consecutiveEmpty + 1
    if 3 ≤ c then
      { a with consecutiveEmpty := c,
               currentInterval := min (a.currentInterval * a.backoffMultiplier) a.maxInterval }
    else
      { a with consecutiveEmpty := c }

/-- `AdaptivePoller.adjustInterval(hasNewContent, nextPollIn?)`.  The JS guard
`nextPollIn && nextPollIn > 0` holds exactly when the suggestion is present and
positive. -/
def AdaptivePoller.adjustInterval (a : AdaptivePoller) (hasNewContent : Bool)
    (nextPollIn : Option ℚ) : AdaptivePoller :=
  match nextPollIn with
  | some v =>
    if 0 < v then { a with currentInterval := max v 1000 }
    else a.adjustLocal hasNewContent
  | none => a.adjustLocal hasNewContent

/-- `AdaptivePoller.reset()`. -/
def AdaptivePoller.reset (a : AdaptivePoller) : AdaptivePoller :=
  { a with currentInterval := a.baseInterval, consecutiveEmpty := 0 }

/-- `AdaptivePoller.getInterval()`. -/
def AdaptivePoller.getInterval (a : AdaptivePoller) : ℚ := a.currentInterval

/-- `AdaptivePoller.getConsecutiveEmpty()`. -/
def AdaptivePoller.getConsecutiveEmpty (a : AdaptivePoller) : ℕ := a.consecutiveEmpty

/-! ## LinkPoller (link-poller.ts)

Callback invocations and timer scheduling are modelled as a list of emitted
`PollEvent`s; the `fetch` outcome of a cycle is an explicit
`Except String PollResponse` argument (a network / non-2xx / malformed-body
failure is the `.error` case, matching the `try/catch` in `poll`). -/

/-- One observable effect of a poll cycle: a callback invocation or the
arming of the next-cycle timer. -/
inductive PollEvent where
  | payloadEv (payload : PayloadData)
  | statusChange (status : LinkStatus)
  | errorCb (message : String)
  | scheduled (intervalMs : ℚ)
deriving DecidableEq

/-- Is this event an `onStatusChange` invocation? -/
def PollEvent.isStatusChange : PollEvent → Bool
  | .statusChange _ => true
  | _ => false

/-- Is this event an `onError` invocation? -/
def PollEvent.isErrorCb : PollEvent → Bool
  | .errorCb _ => true
  | _ => false

/-- Is this event the arming of a next-cycle timer? -/
def PollEvent.isScheduled : PollEvent → Bool
  | .scheduled _ => true
  | _ => false

/-- State of the `LinkPoller` class.  `timeoutId` records the pending timer
(the scheduled delay stands in for the opaque timer handle). -/
structure LinkPoller where
  linkInfo : LinkInfo
  endpoint : String
  apiKey : Option String
  adaptive : AdaptivePoller
  isRunning : Bool
  timeoutId : Option ℚ
  debug : Bool
  clientId : String
  lastSeenTimestamp : Option ℕ
deriving DecidableEq

/-- The `LinkPoller` constructor: note that `options.interval` is *not*
forwarded to the `AdaptivePoller`, which is constructed from the token and
link type only.  `clientId` (ambient randomness in the source) is passed in. -/
def LinkPoller.init (linkInfo : LinkInfo) (options : PollerOptions)
    (clientId : String) : LinkPoller :=
  { linkInfo := linkInfo, endpoint := options.endpoint, apiKey := options.apiKey,
    adaptive := AdaptivePoller.init linkInfo.token linkInfo.type,
    isRunning := false, timeoutId := none, debug := options.debug,
    clientId := clientId, lastSeenTimestamp := none }

/-- `LinkPoller.stop()`: a no-op unless running; otherwise clears the running
flag and the pending timer. -/
def LinkPoller.stop (p : LinkPoller) : LinkPoller :=
  if p.isRunning = false then p
  else { p with isRunning := false, timeoutId := none }

/-- The state-flipping part of `LinkPoller.start()` (the immediate first
`poll()` it awaits is a separate `LinkPoller.poll` step). -/
def LinkPoller.start (p : LinkPoller) : LinkPoller :=
  if p.isRunning = true then p else { p with isRunning := true }

/-- Is this link status one of the terminal ones tested by `poll`
(`expired`, `deleted`, `exhausted`)? -/
def terminalStatus : LinkStatus → Bool
  | .expired => true
  | .deleted => true
  | .exhausted => true
  | .active => false

/-- `LinkPoller.scheduleNextPoll()`: arms the next-cycle timer with the
adaptive controller's current interval; a no-op when not running. -/
def LinkPoller.scheduleNextPoll (p : LinkPoller) (events : List PollEvent) :
    LinkPoller × List PollEvent :=
  if p.isRunning = false then (p, events)
  else
    let interval := p.adaptive.getInterval
    ({ p with timeoutId := some interval }, events ++ [PollEvent.scheduled interval])

/-- One `LinkPoller.poll()` cycle.  `now` is the ambient clock reading and
`fetchResult` the outcome of the awaited network exchange; the returned list
holds the events of the cycle in invocation order. -/
def LinkPoller.poll (p : LinkPoller) (now : ℕ)
    (fetchResult : Except String PollResponse) : LinkPoller × List PollEvent :=
  if p.isRunning = false then (p, [])
  else
    match fetchResult with
    | .error msg =>
      let slowed := { p with adaptive := p.adaptive.adjustInterval false none }
      slowed.scheduleNextPoll [PollEvent.errorCb msg]
    | .ok result =>
      let (p1, events1) :=
        match result.hasNewContent, result.payload with
        | true, some payload =>
          ({ p with lastSeenTimestamp := some now }, [PollEvent.payloadEv payload])
        | _, _ => (p, [])
      let events2 :=
        if result.linkStatus ≠ LinkStatus.active then
          events1 ++ [PollEvent.statusChange result.linkStatus]
        else events1
      if result.linkStatus ≠ LinkStatus.active ∧ terminalStatus result.linkStatus then
        (p1.stop, events2)
      else
        let events3 := match result.error with
          | some e => events2 ++ [PollEvent.errorCb ("Server error: " ++ e)]
          | none => events2
        let p2 := { p1 with
          adaptive := p1.adaptive.adjustInterval result.hasNewContent result.nextPollIn }
        p2.scheduleNextPoll events3

/-- `LinkPoller.getStatus()` (the fields read by the registry snapshot). -/
def LinkPoller.getStatus (p : LinkPoller) : Bool × ℚ × ℕ :=
  (p.isRunning, p.adaptive.getInterval, p.adaptive.getConsecutiveEmpty)

/-! ## URL parsing (utils.ts)

`parseLink` matches the anchored regexes

  secretLinks:  `^https:\/\/secret\.annai\.ai\/link\/([a-zA-Z0-9_-]{16,64})(\?.*)?(#.*)?$`
  customDomain: `^https:\/\/([^\/]+)\/link\/([a-zA-Z0-9_-]{16,64})(\?.*)?(#.*)?$`

and on success reads query/fragment data through the JS `URL` object.  The
matchers below implement the regex semantics directly: the token is the
maximal run of `[a-zA-Z0-9_-]` (backtracking cannot shorten it, because the
characters allowed after the token — end, `?`, `#` — are not token
characters), the custom domain is the maximal run of non-`/` characters, and
`.` does not match JS line terminators. -/

/-- Strip a literal pattern from the head of a character list. -/
def dropLit : List Char → List Char → Option (List Char)
  | [], rest => some rest
  | _ :: _, [] => none
  | c :: ps, d :: cs => if d = c then dropLit ps cs else none

/-- A JS regex line terminator (not matched by `.`). -/
def isLineTerm (c : Char) : Bool :=
  c == '\n' || c == '\r' || c == '\u2028' || c == '\u2029'

/-- A token character, `[a-zA-Z0-9_-]`. -/
def tokenChar (c : Char) : Bool :=
  c.isAlpha || c.isDigit || c == '_' || c == '-'

/-- What may follow the token for the anchored `(\?.*)?(#.*)?$` tail to
match: nothing, or a query/fragment containing no line terminator. -/
def tailOk : List Char → Bool
  | [] => true
  | '?' :: q => q.all (fun c => !isLineTerm c)
  | '#' :: h => h.all (fun c => !isLineTerm c)
  | _ => false

/-- Match the token-and-tail part of both link regexes; returns the token. -/
def matchTokenTail (rest : List Char) : Option String :=
  let tok := rest.takeWhile tokenChar
  let rest2 := rest.dropWhile tokenChar
  if 16 ≤ tok.length ∧ tok.length ≤ 64 ∧ tailOk rest2 = true then
    some tok.asString
  else none

/-- Match the `secretLinks` regex; returns `(domain, token)`. -/
def matchSecret (l : List Char) : Option (String × String) :=
  match dropLit "https://secret.annai.ai/link/".data l with
  | none => none
  | some rest =>
    match matchTokenTail rest with
    | some tok => some ("secret.annai.ai", tok)
    | none => none

/-- Match the `customDomain` regex; returns `(domain, token)`. -/
def matchCustom (l : List Char) : Option (String × String) :=
  match dropLit "https://".data l with
  | none => none
  | some rest =>
    let dom := rest.takeWhile (fun c => !(c == '/'))
    let rest1 := rest.dropWhile (fun c => !(c == '/'))
    if dom.length = 0 then none
    else
      match dropLit "/link/".data rest1 with
      | none => none
      | some rest2 =>
        match matchTokenTail rest2 with
        | some tok => some (dom.asString, tok)
        | none => none

/-- The components of a parsed `https:` URL that `parseLink` reads. -/
structure URLParts where
  host : String
  query : String
  fragment : String
deriving DecidableEq

/-- Shallow model of the JS `new URL(...)` constructor, restricted to the
fields `parseLink` reads from an `https:` URL: it splits off the authority,
the query (after the first `?`) and the fragment (after the first `#`), and
fails — the constructor throws — when the host is empty or contains
whitespace. -/
def jsURL (url : String) : Option URLParts :=
  match dropLit "https://".data url.data with
  | none => none
  | some rest =>
    let host := rest.takeWhile (fun c => !(c == '/' || c == '?' || c == '#'))
    let rest1 := rest.dropWhile (fun c => !(c == '/' || c == '?' || c == '#'))
    if host.length = 0 ∨ host.any (fun c => c == ' ' || c == '\t' || c == '\n' || c == '\r') then
      none
    else
      let afterPath := rest1.dropWhile (fun c => !(c == '?' || c == '#'))
      match afterPath with
      | '?' :: qs =>
        let q := qs.takeWhile (fun c => !(c == '#'))
        let frag := match qs.dropWhile (fun c => !(c == '#')) with
          | '#' :: fs => fs
          | _ => []
        some { host := host.asString, query := q.asString, fragment := frag.asString }
      | '#' :: fs => some { host := host.asString, query := "", fragment := fs.asString }
      | _ => some { host := host.asString, query := "", fragment := "" }

/-- Split a character list on a separator character. -/
def splitOnChar (sep : Char) (l : List Char) : List (List Char) :=
  l.foldr
    (fun c acc =>
      match acc with
      | [] => [[c]]
      | g :: gs => if c = sep then [] :: g :: gs else (c :: g) :: gs)
    [[]]

/-- The name/value pairs of a query string, as `URLSearchParams` exposes
them: split on `&`, empty segments skipped, name before the first `=`. -/
def queryParams (q : String) : List (String × String) :=
  ((splitOnChar '&' q.data).filter (fun seg => seg ≠ [])).map
    (fun seg =>
      ((seg.takeWhile (fun c => !(c == '='))).asString,
       match seg.dropWhile (fun c => !(c == '=')) with
       | '=' :: v => v.asString
       | _ => ""))

/-- `searchParams.has(name)`. -/
def hasParam (q : String) (name : String) : Bool :=
  (queryParams q).any (fun e => e.1 == name)

/-- `searchParams.get(name)` (first match). -/
def getParam (q : String) (name : String) : Option String :=
  ((queryParams q).find? (fun e => e.1 == name)).map (fun e => e.2)

/-- The record returned by `parseLink` on every failed parse: invalid, with
empty token and domain. -/
def invalidLinkInfo : LinkInfo :=
  { isValid := false, token := "", type := .ping, hasPassword := false,
    hasEncryption := false, domain := "", password := none, encryptionKey := none }

/-- `detectLinkType`: tokens of at most 24 characters are ping links. -/
def detectLinkType (token : String) : LinkType :=
  if token.length ≤ 24 then .ping else .webhook

/-- `parseLink` from utils.ts.  The `.error` case models the function
throwing (which can only happen in the `new URL(url)` call on the success
path); every shape failure returns `invalidLinkInfo` without throwing. -/
def parseLink (url : String) : Except String LinkInfo :=
  if url = "" then .ok invalidLinkInfo
  else
    let m := match matchSecret url.data with
      | some dt => some dt
      | none => matchCustom url.data
    match m with
    | none => .ok invalidLinkInfo
    | some (domain, token) =>
      if token = "" then .ok invalidLinkInfo
      else
        match jsURL url with
        | none => .error "Invalid URL"
        | some u =>
          let hasPassword := hasParam u.query "password"
          let hash : String := if u.fragment = "" then "" else "#" ++ u.fragment
          let hasEncryption := 1 < hash.length
          let password := if hasPassword then
              match getParam u.query "password" with
              | some v => if v = "" then none else some v
              | none => none
            else none
          let encryptionKey := if hasEncryption then some (hash.drop 1) else none
          .ok { isValid := true, token := token, type := detectLinkType token,
                hasPassword := hasPassword, hasEncryption := hasEncryption,
                domain := domain, password := password, encryptionKey := encryptionKey }

/-! ## SecretLinksSDK (secret-links-sdk.ts) -/

/-- `ValidationOptions` from types.ts. -/
structure ValidationOptions where
  allowedDomains : Option (List String)
  allowedLinkTypes : Option (List LinkType)
  requirePassword : Option Bool
deriving DecidableEq

/-- `SDKOptions` from types.ts (the caller-facing constructor argument). -/
structure SDKOptions where
  pollingEndpoint : String
  apiKey : Option String
  pingInterval : Option ℚ
  webhookInterval : Option ℚ
  debug : Option Bool
  validation : Option ValidationOptions
deriving DecidableEq

/-- The per-channel intervals resolved by the SDK constructor. -/
structure Intervals where
  ping : ℚ
  webhook : ℚ
deriving DecidableEq

/-- The immutable configuration a constructed `SecretLinksSDK` holds. -/
structure SDKConfig where
  pollingEndpoint : String
  apiKey : Option String
  intervals : Intervals
  debug : Bool
  validation : Option ValidationOptions
deriving DecidableEq

/-- JS `v || d` defaulting for an optional numeric option (`0` is falsy). -/
def jsOrQ (v : Option ℚ) (d : ℚ) : ℚ :=
  match v with
  | some x => if x = 0 then d else x
  | none => d

namespace SecretLinksSDK

/-- The `SecretLinksSDK` constructor: resolves interval defaults
(`pingInterval || 10000`, `webhookInterval || 60000`) and stores the
validation policy. -/
def init (options : SDKOptions) : SDKConfig :=
  { pollingEndpoint := options.pollingEndpoint, apiKey := options.apiKey,
    intervals := { ping := jsOrQ options.pingInterval 10000,
                   webhook := jsOrQ options.webhookInterval 60000 },
    debug := options.debug.getD false, validation := options.validation }

/-- String form of a link type, used in validation error messages. -/
def typeName : LinkType → String
  | .ping => "ping"
  | .webhook => "webhook"

/-- `applyValidationRules`: first failing rule wins (domain allow-list, then
link-type allow-list, then password requirement); `none` means valid. -/
def applyValidationRules (validation : ValidationOptions) (linkInfo : LinkInfo) :
    Option String :=
  if (match validation.allowedDomains with
      | some doms => decide (0 < doms.length) && !(doms.contains linkInfo.domain)
      | none => false) then
    some ("Domain " ++ linkInfo.domain ++ " is not allowed. Allowed domains: "
          ++ String.intercalate ", " (validation.allowedDomains.getD []))
  else if (match validation.allowedLinkTypes with
      | some ts => decide (0 < ts.length) && !(ts.contains linkInfo.type)
      | none => false) then
    some ("Link type " ++ typeName linkInfo.type ++ " is not allowed. Allowed types: "
          ++ String.intercalate ", " ((validation.allowedLinkTypes.getD []).map typeName))
  else if validation.requirePassword.getD false ∧ linkInfo.hasPassword = false then
    some "Password-protected links are required"
  else none

/-- `SecretLinksSDK.validateLink`: parse, then apply the configured custom
validation rules; a rule failure clears `isValid` on the parsed record. -/
def validateLink (cfg : SDKConfig) (url : String) : Except String LinkInfo :=
  match parseLink url with
  | .error e => .error e
  | .ok linkInfo =>
    if linkInfo.isValid = false then .ok linkInfo
    else
      match cfg.validation with
      | none => .ok linkInfo
      | some v =>
        match applyValidationRules v linkInfo with
        | some _ => .ok { linkInfo with isValid := false }
        | none => .ok linkInfo

end SecretLinksSDK

/-- The mutable state of a `SecretLinksSDK` instance: the listener counter
and the `activeListeners` map (insertion-ordered, as a JS `Map`). -/
structure SDKState where
  listenerCounter : ℕ
  activeListeners : List (String × LinkPoller)
deriving DecidableEq

/-- `Map.get`. -/
def mapGet (l : List (String × LinkPoller)) (k : String) : Option LinkPoller :=
  (l.find? (fun e => e.1 = k)).map (fun e => e.2)

/-- `Map.set`: replaces in place if the key is present, else appends. -/
def mapSet (l : List (String × LinkPoller)) (k : String) (v : LinkPoller) :
    List (String × LinkPoller) :=
  if l.any (fun e => e.1 = k) then
    l.map (fun e => if e.1 = k then (k, v) else e)
  else l ++ [(k, v)]

/-- `Map.delete`. -/
def mapDelete (l : List (String × LinkPoller)) (k : String) :
    List (String × LinkPoller) :=
  l.filter (fun e => ¬ e.1 = k)

/-- A freshly constructed SDK instance: counter 0, no listeners. -/
def SDKState.initial : SDKState := { listenerCounter := 0, activeListeners := [] }

/-- The listener identifier template `listener-${Date.now()}-${counter}`. -/
def genListenerId (now : ℕ) (counter : ℕ) : String :=
  "listener-" ++ Nat.repr now ++ "-" ++ Nat.repr counter

namespace SecretLinksSDK

/-- The poller `startListening` constructs: endpoint, key and debug flag
from the configuration, the interval chosen from the per-channel table with
the JS `|| this.intervals.ping` fallback. -/
def buildPoller (cfg : SDKConfig) (linkInfo : LinkInfo) (clientId : String) :
    LinkPoller :=
  let chosen := match linkInfo.type with
    | .ping => cfg.intervals.ping
    | .webhook => cfg.intervals.webhook
  LinkPoller.init linkInfo
    { endpoint := cfg.pollingEndpoint, apiKey := cfg.apiKey,
      interval := if chosen = 0 then cfg.intervals.ping else chosen,
      debug := cfg.debug } clientId

/-- `SecretLinksSDK.startListening`.  `now` models `Date.now()`, `clientId`
the generated client identifier, and `startOk` whether the awaited
`poller.start()` resolves (its `catch` branch removes the entry again and
rethrows).  Returns the successor state and the settled promise. -/
def startListening (cfg : SDKConfig) (st : SDKState) (linkUrl : String)
    (now : ℕ) (clientId : String) (startOk : Bool) :
    SDKState × Except String String :=
  match validateLink cfg linkUrl with
  | .error e => (st, .error e)
  | .ok linkInfo =>
    if linkInfo.isValid = false then (st, .error "Invalid Secret Link URL")
    else
      let counter := st.listenerCounter + 1
      let listenerId := genListenerId now counter
      let poller := buildPoller cfg linkInfo clientId
      if startOk then
        ({ listenerCounter := counter,
           activeListeners := mapSet st.activeListeners listenerId poller.start },
         .ok listenerId)
      else
        ({ listenerCounter := counter,
           activeListeners :=
             mapDelete (mapSet st.activeListeners listenerId poller) listenerId },
         .error "start failed")

/-- `SecretLinksSDK.stopListening`: unknown identifiers are a silent no-op. -/
def stopListening (st : SDKState) (listenerId : String) : SDKState :=
  match mapGet st.activeListeners listenerId with
  | none => st
  | some _ => { st with activeListeners := mapDelete st.activeListeners listenerId }

/-- `SecretLinksSDK.stopAll`. -/
def stopAll (st : SDKState) : SDKState :=
  { st with activeListeners := [] }

/-- `getActiveListenerCount`. -/
def getActiveListenerCount (st : SDKState) : ℕ := st.activeListeners.length

end SecretLinksSDK

/-- One registry-level operation, for reasoning about operation traces. -/
inductive RegOp where
  | startL (url : String) (now : ℕ) (clientId : String) (startOk : Bool)
  | stopL (listenerId : String)
  | stopAllOp
deriving DecidableEq

namespace SecretLinksSDK

/-- Run one registry operation; returns the successor state and the listener
identifier allocated by a successful `startListening`, if any. -/
def runOp (cfg : SDKConfig) (st : SDKState) : RegOp → SDKState × Option String
  | .startL url now cid ok1 =>
    let (st1, r) := startListening cfg st url now cid ok1
    (st1, r.toOption)
  | .stopL listenerId => (stopListening st listenerId, none)
  | .stopAllOp => (stopAll st, none)

/-- Run a trace of registry operations; collects the identifiers allocated
by the successful `startListening` calls, in order. -/
def run (cfg : SDKConfig) (st : SDKState) : List RegOp → SDKState × List String
  | [] => (st, [])
  | op :: ops =>
    let (st1, r) := runOp cfg st op
    let (st2, ids) := run cfg st1 ops
    (st2, r.toList ++ ids)

end SecretLinksSDK

/-! ## Helpers for reasoning about listener identifiers

A listener identifier is `listener-<now>-<counter>`; the decimal digits of
`Nat.repr` contain no `-`, so the counter is recoverable as the segment after
the last `-`, which makes the identifier injective in the counter. -/

/-- Decode a decimal digit string (most significant first) onto an
accumulator. -/
def decDigits : List Char → ℕ → ℕ
  | [], acc => acc
  | c :: cs, acc => decDigits cs (10 * acc + (c.toNat - 48))

/-- Not the separator character of a listener identifier. -/
def notDash (c : Char) : Bool := !(c == '-')

/-- The segment of a character list after its last `-` (computed from the
reversed list). -/
def lastSegment (l : List Char) : List Char :=
  (l.reverse.takeWhile notDash).reverse

/-- The identifier was generated by the template from some clock reading and
a counter value between 1 and `bound`. -/
def IdFromCounter (bound : ℕ) (s : String) : Prop :=
  ∃ n c, s = genListenerId n c ∧ 1 ≤ c ∧ c ≤ bound

/-- Registry-table invariant: identifiers are pairwise distinct and every
identifier was allocated from a counter value no larger than the current
listener counter. -/
def StInv (st : SDKState) : Prop :=
  (st.activeListeners.map Prod.fst).Nodup ∧
  ∀ k ∈ st.activeListeners.map Prod.fst, IdFromCounter st.listenerCounter k

/-! ## Concrete fixtures used by the witnesses -/

/-- A parsed, valid ping-link descriptor. -/
def sampleLinkInfo : LinkInfo :=
  { isValid := true, token := "abc123def456ghi789", type := .ping,
    hasPassword := false, hasEncryption := false, domain := "secret.annai.ai",
    password := none, encryptionKey := none }

/-- A running poller for `sampleLinkInfo`. -/
def samplePoller : LinkPoller :=
  (LinkPoller.init sampleLinkInfo
    { endpoint := "https://example.com/api/poll", apiKey := none,
      interval := 10000, debug := false } "client-1").start

/-- A poller that was never started. -/
def sampleIdlePoller : LinkPoller :=
  LinkPoller.init sampleLinkInfo
    { endpoint := "https://example.com/api/poll", apiKey := none,
      interval := 10000, debug := false } "client-1"

/-- A poll response carrying a terminal state and a server error. -/
def sampleTerminalResponse : PollResponse :=
  { hasNewContent := false, payload := none, nextPollIn := none,
    error := some "link deleted", linkStatus := .deleted }

/-- An SDK configuration with no custom validation. -/
def sampleCfg : SDKConfig :=
  SecretLinksSDK.init
    { pollingEndpoint := "https://example.com/api/poll", apiKey := none,
      pingInterval := none, webhookInterval := none, debug := none,
      validation := none }

/-- An SDK configuration with a ping-interval override of 5000 ms. -/
def overrideCfg : SDKConfig :=
  SecretLinksSDK.init
    { pollingEndpoint := "https://example.com/api/poll", apiKey := none,
      pingInterval := some 5000, webhookInterval := none, debug := none,
      validation := none }

/-- The registry state after one successful `startListening` under
`overrideCfg` (ping interval overridden to 5000 ms). -/
def overrideState : SDKState :=
  (SecretLinksSDK.startListening overrideCfg SDKState.initial
    "https://secret.annai.ai/link/abc123def456ghi789" 0 "client-1" true).1

/-- An SDK configuration requiring password-protected links. -/
def passwordCfg : SDKConfig :=
  SecretLinksSDK.init
    { pollingEndpoint := "https://example.com/api/poll", apiKey := none,
      pingInterval := none, webhookInterval := none, debug := none,
      validation := some { allowedDomains := none, allowedLinkTypes := none,
                           requirePassword := some true } }

/-! ## Interval controller theorems -/

/-- C2: from a state at the base interval with no empty cycles recorded,
three consecutive `adjust(false)` calls leave the interval unchanged after
the first two and multiply it by 1.5 (capped at 300000 ms) on the third; and
`adjust(true)` with no server suggestion resets the interval to the base and
the empty-cycle count to 0, from any prior state. -/
theorem backoff_debounce_and_reset (a : AdaptivePoller)
    (hb : a.backoffMultiplier = 3/2) (hm : a.maxInterval = 300000)
    (h0 : a.consecutiveEmpty = 0) (hc : a.currentInterval = a.baseInterval) :
    ((a.adjustInterval false none).currentInterval = a.baseInterval) ∧
    (((a.adjustInterval false none).adjustInterval false none).currentInterval
        = a.baseInterval) ∧
    ((((a.adjustInterval false none).adjustInterval false none).adjustInterval
        false none).currentInterval = min (a.baseInterval * (3/2)) 300000) ∧
    (∀ b : AdaptivePoller,
      (b.adjustInterval true none).currentInterval = b.baseInterval ∧
      (b.adjustInterval true none).consecutiveEmpty = 0) := by
  refine ⟨?_, ?_, ?_, ?_⟩
  · simp [AdaptivePoller.adjustInterval, AdaptivePoller.adjustLocal, h0, hc]
  · simp [AdaptivePoller.adjustInterval, AdaptivePoller.adjustLocal, h0, hc]
  · simp [AdaptivePoller.adjustInterval, AdaptivePoller.adjustLocal, h0, hc, hb, hm]
  · intro b
    constructor <;> simp [AdaptivePoller.adjustInterval, AdaptivePoller.adjustLocal]

/-- Witness for C2 at a freshly constructed ping controller. -/
theorem backoff_debounce_and_reset_witness :
    ((AdaptivePoller.init "tok" .ping).backoffMultiplier = 3/2) ∧
    ((AdaptivePoller.init "tok" .ping).maxInterval = 300000) ∧
    ((AdaptivePoller.init "tok" .ping).consecutiveEmpty = 0) ∧
    ((AdaptivePoller.init "tok" .ping).currentInterval
        = (AdaptivePoller.init "tok" .ping).baseInterval) ∧
    ((((AdaptivePoller.init "tok" .ping).adjustInterval false none).adjustInterval
        false none).adjustInterval false none).currentInterval
      = min ((AdaptivePoller.init "tok" .ping).baseInterval * (3/2)) 300000 :=
  ⟨rfl, rfl, rfl, rfl,
    (backoff_debounce_and_reset (AdaptivePoller.init "tok" .ping)
      rfl rfl rfl rfl).2.2.1⟩

/-- C5: a positive server-suggested interval is adopted directly (floored at
1000 ms) regardless of `hasNewContent`, and every other field — in
particular the empty-cycle counter — is left unchanged. -/
theorem server_suggestion_wins (a : AdaptivePoller) (hasNewContent : Bool)
    (s : ℚ) (hs : 0 < s) :
    a.adjustInterval hasNewContent (some s) = { a with currentInterval := max s 1000 } := by
  simp [AdaptivePoller.adjustInterval, hs]

/-- Witness for C5 at a concrete controller and suggestion 2500 ms. -/
theorem server_suggestion_wins_witness :
    (0 < (2500 : ℚ)) ∧
    (AdaptivePoller.init "tok" .ping).adjustInterval false (some 2500)
      = { AdaptivePoller.init "tok" .ping with currentInterval := max 2500 1000 } :=
  ⟨by norm_num,
   server_suggestion_wins (AdaptivePoller.init "tok" .ping) false 2500 (by norm_num)⟩

/-! ## Link poller theorems -/

/-- C8: `stop()` on a poller that is not running changes nothing (and emits
nothing, since `stop` emits no events by construction), and `stopListening`
with an identifier absent from the table returns the state unchanged. -/
theorem stop_and_stopListening_noop :
    (∀ p : LinkPoller, p.isRunning = false → p.stop = p) ∧
    (∀ (st : SDKState) (listenerId : String),
      mapGet st.activeListeners listenerId = none →
      SecretLinksSDK.stopListening st listenerId = st) := by
  constructor
  · intro p h
    simp [LinkPoller.stop, h]
  · intro st listenerId h
    simp [SecretLinksSDK.stopListening, h]

/-- Witness for C8: a never-started poller and an empty registry. -/
theorem stop_and_stopListening_noop_witness :
    (sampleIdlePoller.stop = sampleIdlePoller) ∧
    (SecretLinksSDK.stopListening SDKState.initial "listener-0-1" = SDKState.initial) :=
  ⟨stop_and_stopListening_noop.1 sampleIdlePoller rfl,
   stop_and_stopListening_noop.2 SDKState.initial "listener-0-1" rfl⟩

/-- C4: a poll cycle failing in transport (the `catch` branch) invokes
`onError` with that error, feeds `(false, undefined)` into the interval
controller, and schedules the next cycle; the poller stays running. -/
theorem transport_error_continues (p : LinkPoller) (now : ℕ) (msg : String)
    (hrun : p.isRunning = true) :
    p.poll now (Except.error msg) =
      ({ p with adaptive := p.adaptive.adjustInterval false none,
                timeoutId := some (p.adaptive.adjustInterval false none).currentInterval },
       [PollEvent.errorCb msg,
        PollEvent.scheduled (p.adaptive.adjustInterval false none).currentInterval]) := by
  simp [LinkPoller.poll, LinkPoller.scheduleNextPoll, AdaptivePoller.getInterval, hrun]

/-- Witness for C4 at a running poller and a concrete HTTP failure. -/
theorem transport_error_continues_witness :
    (samplePoller.isRunning = true) ∧
    samplePoller.poll 7 (Except.error "HTTP 500: Internal Server Error") =
      ({ samplePoller with
          adaptive := samplePoller.adaptive.adjustInterval false none,
          timeoutId := some (samplePoller.adaptive.adjustInterval false none).currentInterval },
       [PollEvent.errorCb "HTTP 500: Internal Server Error",
        PollEvent.scheduled (samplePoller.adaptive.adjustInterval false none).currentInterval]) :=
  ⟨rfl, transport_error_continues samplePoller 7 "HTTP 500: Internal Server Error" rfl⟩

/-- C10: a cycle whose response carries both a terminal link state and a
`serverError` stops the poller before the server-error handling and the
interval adjustment run: no `onError` is invoked and the adaptive interval
state is unchanged. -/
theorem terminal_cycle_skips_error_and_backoff (p : LinkPoller) (now : ℕ)
    (r : PollResponse) (hrun : p.isRunning = true)
    (hterm : terminalStatus r.linkStatus = true) (_herr : r.error.isSome = true) :
    ((p.poll now (Except.ok r)).1.adaptive = p.adaptive) ∧
    ((p.poll now (Except.ok r)).2.filter PollEvent.isErrorCb = []) ∧
    ((p.poll now (Except.ok r)).1.isRunning = false) := by
  have hne : ¬ r.linkStatus = LinkStatus.active := by
    cases h : r.linkStatus <;> simp [h, terminalStatus] at hterm ⊢
  cases hp : r.payload <;> cases hn : r.hasNewContent <;>
    simp [LinkPoller.poll, LinkPoller.stop, hrun, hne, hterm, hp, hn,
          List.filter_append, PollEvent.isErrorCb]

/-- Witness for C10 at a running poller and a deleted-with-error response. -/
theorem terminal_cycle_skips_error_and_backoff_witness :
    (samplePoller.isRunning = true) ∧
    (terminalStatus sampleTerminalResponse.linkStatus = true) ∧
    (sampleTerminalResponse.error.isSome = true) ∧
    ((samplePoller.poll 7 (Except.ok sampleTerminalResponse)).1.adaptive
        = samplePoller.adaptive) :=
  ⟨rfl, rfl, rfl,
   (terminal_cycle_skips_error_and_backoff samplePoller 7 sampleTerminalResponse
      rfl rfl rfl).1⟩

/-- A poll cycle on a non-running poller is a complete no-op. -/
theorem poll_not_running (p : LinkPoller) (now : ℕ)
    (fr : Except String PollResponse) (h : p.isRunning = false) :
    p.poll now fr = (p, []) := by
  simp [LinkPoller.poll, h]

/-- C1: a poll cycle whose response carries a terminal link state invokes
`onStatusChange` exactly once with that state, stops the poller (running
flag cleared, pending timer cleared), schedules nothing, and leaves the
poller in a state in which every further poll cycle is a no-op (so no
further cycle is ever scheduled). -/
theorem terminal_poll_stops_permanently (p : LinkPoller) (now : ℕ)
    (r : PollResponse) (hrun : p.isRunning = true)
    (hterm : terminalStatus r.linkStatus = true) :
    ((p.poll now (Except.ok r)).1.isRunning = false) ∧
    ((p.poll now (Except.ok r)).1.timeoutId = none) ∧
    ((p.poll now (Except.ok r)).2.filter PollEvent.isStatusChange
        = [PollEvent.statusChange r.linkStatus]) ∧
    ((p.poll now (Except.ok r)).2.filter PollEvent.isScheduled = []) ∧
    (∀ (now2 : ℕ) (fr : Except String PollResponse),
      (p.poll now (Except.ok r)).1.poll now2 fr = ((p.poll now (Except.ok r)).1, [])) := by
  have hne : ¬ r.linkStatus = LinkStatus.active := by
    cases h : r.linkStatus <;> simp [h, terminalStatus] at hterm ⊢
  have hmain :
      ((p.poll now (Except.ok r)).1.isRunning = false) ∧
      ((p.poll now (Except.ok r)).1.timeoutId = none) ∧
      ((p.poll now (Except.ok r)).2.filter PollEvent.isStatusChange
          = [PollEvent.statusChange r.linkStatus]) ∧
      ((p.poll now (Except.ok r)).2.filter PollEvent.isScheduled = []) := by
    cases hp : r.payload <;> cases hn : r.hasNewContent <;>
      simp [LinkPoller.poll, LinkPoller.stop, hrun, hne, hterm, hp, hn,
            List.filter_append, PollEvent.isStatusChange, PollEvent.isScheduled]
  refine ⟨hmain.1, hmain.2.1, hmain.2.2.1, hmain.2.2.2, ?_⟩
  intro now2 fr
  exact poll_not_running _ now2 fr hmain.1

/-- Witness for C1 at a running poller and a deleted-state response. -/
theorem terminal_poll_stops_permanently_witness :
    (samplePoller.isRunning = true) ∧
    (terminalStatus sampleTerminalResponse.linkStatus = true) ∧
    ((samplePoller.poll 7 (Except.ok sampleTerminalResponse)).1.isRunning = false) ∧
    ((samplePoller.poll 7 (Except.ok sampleTerminalResponse)).2.filter
        PollEvent.isStatusChange
      = [PollEvent.statusChange sampleTerminalResponse.linkStatus]) :=
  ⟨rfl, rfl,
   (terminal_poll_stops_permanently samplePoller 7 sampleTerminalResponse rfl rfl).1,
   (terminal_poll_stops_permanently samplePoller 7 sampleTerminalResponse rfl rfl).2.2.1⟩

/-! ## Parsing and registry theorems -/

/-- C9: every URL that fails the anchored link-shape regexes (token length
16–64, domain shape; the empty string fails them too) makes `parseLink` — and
hence `validateLink` under any configuration — return, without throwing, an
invalid `LinkInfo` with empty token and empty domain. -/
theorem parse_shape_failure_invalid (url : String)
    (h1 : matchSecret url.data = none) (h2 : matchCustom url.data = none) :
    parseLink url = Except.ok invalidLinkInfo ∧
    ∀ cfg : SDKConfig, SecretLinksSDK.validateLink cfg url = Except.ok invalidLinkInfo := by
  have hp : parseLink url = Except.ok invalidLinkInfo := by
    by_cases he : url = "" <;> simp [parseLink, he, h1, h2]
  refine ⟨hp, fun cfg => ?_⟩
  simp [SecretLinksSDK.validateLink, hp, invalidLinkInfo]

/-- Witness for C9 at a URL with the wrong path shape. -/
theorem parse_shape_failure_invalid_witness :
    (matchSecret "https://example.com/invalid".data = none) ∧
    (matchCustom "https://example.com/invalid".data = none) ∧
    parseLink "https://example.com/invalid" = Except.ok invalidLinkInfo :=
  ⟨by decide, by decide,
   (parse_shape_failure_invalid "https://example.com/invalid"
      (by decide) (by decide)).1⟩

/-- C6: when `validateLink` yields an invalid descriptor — a parse failure or
any custom-rule failure — `startListening` rejects with the generic
invalid-link error and returns the registry state unchanged: no poller is
registered and the listener counter is not advanced. -/
theorem startListening_invalid_rejects (cfg : SDKConfig) (st : SDKState)
    (url : String) (now : ℕ) (clientId : String) (startOk : Bool)
    (linkInfo : LinkInfo)
    (hv : SecretLinksSDK.validateLink cfg url = Except.ok linkInfo)
    (hinv : linkInfo.isValid = false) :
    SecretLinksSDK.startListening cfg st url now clientId startOk
      = (st, Except.error "Invalid Secret Link URL") := by
  simp [SecretLinksSDK.startListening, hv, hinv]

/-- Witness for C6: a password-required configuration rejecting a
passwordless link leaves the registry untouched. -/
theorem startListening_invalid_rejects_witness :
    (SecretLinksSDK.validateLink passwordCfg
        "https://secret.annai.ai/link/abc123def456ghi789"
      = Except.ok { sampleLinkInfo with isValid := false }) ∧
    ({ sampleLinkInfo with isValid := false }.isValid = false) ∧
    SecretLinksSDK.startListening passwordCfg SDKState.initial
        "https://secret.annai.ai/link/abc123def456ghi789" 0 "client-1" true
      = (SDKState.initial, Except.error "Invalid Secret Link URL") :=
  ⟨rfl, rfl,
   startListening_invalid_rejects passwordCfg SDKState.initial
     "https://secret.annai.ai/link/abc123def456ghi789" 0 "client-1" true
     { sampleLinkInfo with isValid := false } rfl rfl⟩

/-- C3 fails on the code: an SDK constructed with `pingInterval: 5000`
registers a poller whose interval controller has `baseInterval = 10000` —
the `AdaptivePoller` constructor hardcodes the base from the link type and
the caller override in `PollerOptions.interval` is never forwarded, so
`adjust(true)` and `reset()` restore the hardcoded default, not 5000. -/
theorem ping_override_not_forwarded :
    (overrideCfg.intervals.ping = 5000) ∧
    (overrideState.activeListeners.map (fun e => e.2.adaptive.baseInterval) = [10000]) ∧
    (overrideState.activeListeners.map (fun e => (e.2.adaptive.reset).currentInterval)
        = [10000]) ∧
    ((10000 : ℚ) ≠ 5000) := by
  refine ⟨by norm_num [overrideCfg, SecretLinksSDK.init, jsOrQ], ?_, ?_, by norm_num⟩
  · decide
  · decide

/-! ## Listener identifier injectivity

`listener-<now>-<counter>` determines the counter: the decimal digits of
`Nat.repr` contain no `-`, so the counter's digits are the segment after the
last `-`, and decimal representation is injective. -/

/-- Decimal digit characters are digits. -/
theorem digitChar_isDigit {m : ℕ} (h : m < 10) : (Nat.digitChar m).isDigit = true := by
  interval_cases m <;> decide

/-- Decoding a decimal digit character recovers its value. -/
theorem digitChar_toNat {m : ℕ} (h : m < 10) : (Nat.digitChar m).toNat - 48 = m := by
  interval_cases m <;> decide

/-- Over base 10, `Nat.toDigitsCore` only prepends digit characters. -/
theorem toDigitsCore_digits :
    ∀ (f n : ℕ) (ds : List Char), (∀ c ∈ ds, c.isDigit = true) →
      ∀ c ∈ Nat.toDigitsCore 10 f n ds, c.isDigit = true := by
  intro f
  induction f with
  | zero => intro n ds h c hc; exact h c hc
  | succ f ih =>
    intro n ds h c hc
    rw [Nat.toDigitsCore] at hc
    by_cases h0 : n / 10 = 0
    · simp only [h0, if_pos] at hc
      rcases List.mem_cons.mp hc with hc | hc
      · subst hc; exact digitChar_isDigit (Nat.mod_lt _ (by norm_num))
      · exact h c hc
    · simp only [h0, if_neg, if_false] at hc
      refine ih (n / 10) (Nat.digitChar (n % 10) :: ds) ?_ c hc
      intro d hd
      rcases List.mem_cons.mp hd with hd | hd
      · subst hd; exact digitChar_isDigit (Nat.mod_lt _ (by norm_num))
      · exact h d hd

/-- Decoding the digits `Nat.toDigitsCore` produces recovers the number. -/
theorem decDigits_toDigitsCore :
    ∀ (f n : ℕ) (ds : List Char) (acc : ℕ), n < f →
      ∃ k, decDigits (Nat.toDigitsCore 10 f n ds) acc
            = decDigits ds (acc * 10 ^ k + n) ∧ n < 10 ^ k := by
  intro f
  induction f with
  | zero => intro n ds acc h; exact absurd h (Nat.not_lt_zero n)
  | succ f ih =>
    intro n ds acc h
    rw [Nat.toDigitsCore]
    by_cases h0 : n / 10 = 0
    · have hn : n < 10 := by omega
      refine ⟨1, ?_, by omega⟩
      simp only [h0, if_pos, decDigits]
      rw [digitChar_toNat (show n % 10 < 10 by omega)]
      congr 1
      omega
    · have hge : 10 ≤ n := by omega
      have hlt : n / 10 < f := by omega
      obtain ⟨k, hdec, hbound⟩ := ih (n / 10) (Nat.digitChar (n % 10) :: ds) acc hlt
      refine ⟨k + 1, ?_, ?_⟩
      · simp only [h0, if_neg, if_false]
        rw [hdec]
        simp only [decDigits]
        rw [digitChar_toNat (show n % 10 < 10 by omega)]
        congr 1
        have hmod : 10 * (n / 10) + n % 10 = n := Nat.div_add_mod n 10
        calc 10 * (acc * 10 ^ k + n / 10) + n % 10
            = acc * (10 * 10 ^ k) + (10 * (n / 10) + n % 10) := by ring
          _ = acc * 10 ^ (k + 1) + n := by rw [hmod]; ring
      · have hp : (10 : ℕ) ^ (k + 1) = 10 * 10 ^ k := by ring
        rw [hp]
        omega

/-- The decimal representation of a natural number is all digits. -/
theorem repr_digits (n : ℕ) : ∀ c ∈ (Nat.repr n).data, c.isDigit = true := by
  intro c hc
  have hd : (Nat.repr n).data = Nat.toDigitsCore 10 (n + 1) n [] := rfl
  rw [hd] at hc
  exact toDigitsCore_digits (n + 1) n [] (by simp) c hc

/-- `Nat.repr` is injective. -/
theorem repr_injective {m n : ℕ} (h : Nat.repr m = Nat.repr n) : m = n := by
  obtain ⟨k1, e1, -⟩ := decDigits_toDigitsCore (m + 1) m [] 0 (Nat.lt_succ_self m)
  obtain ⟨k2, e2, -⟩ := decDigits_toDigitsCore (n + 1) n [] 0 (Nat.lt_succ_self n)
  have hdata : Nat.toDigitsCore 10 (m + 1) m [] = Nat.toDigitsCore 10 (n + 1) n [] :=
    congrArg String.data h
  have e3 : decDigits (Nat.toDigitsCore 10 (m + 1) m []) 0
      = decDigits (Nat.toDigitsCore 10 (n + 1) n []) 0 := by rw [hdata]
  rw [e1, e2] at e3
  simpa [decDigits] using e3

/-- Digits are not the `-` separator. -/
theorem notDash_of_isDigit {c : Char} (h : c.isDigit = true) : notDash c = true := by
  by_cases hc : c = '-'
  · subst hc; exact absurd h (by decide)
  · simp [notDash, hc]

/-- `takeWhile` passes over a block that satisfies the predicate. -/
theorem takeWhile_all_append (p : Char → Bool) :
    ∀ (xs ys : List Char), (∀ c ∈ xs, p c = true) →
      (xs ++ ys).takeWhile p = xs ++ ys.takeWhile p := by
  intro xs
  induction xs with
  | nil => intro ys h; simp
  | cons x xs ih =>
    intro ys h
    have hx : p x = true := h x (List.mem_cons_self x xs)
    simp [List.takeWhile_cons, hx, ih ys (fun c hc => h c (List.mem_cons_of_mem x hc))]

/-- The segment after the last `-` of `l ++ '-' :: r` is `r`, when `r` is
dash-free. -/
theorem lastSegment_append (l r : List Char) (h : ∀ c ∈ r, notDash c = true) :
    lastSegment (l ++ '-' :: r) = r := by
  unfold lastSegment
  rw [List.reverse_append, List.reverse_cons, List.append_assoc]
  rw [takeWhile_all_append notDash r.reverse (['-'] ++ l.reverse)
    (fun c hc => h c (List.mem_reverse.mp hc))]
  simp [List.takeWhile_cons, notDash]

/-- The counter digits of a listener identifier are its last segment. -/
theorem lastSegment_genListenerId (n c : ℕ) :
    lastSegment (genListenerId n c).data = (Nat.repr c).data := by
  have hd : (genListenerId n c).data
      = ("listener-".data ++ (Nat.repr n).data) ++ '-' :: (Nat.repr c).data := by
    simp [genListenerId, String.data_append]
  rw [hd]
  exact lastSegment_append _ _ (fun ch hch => notDash_of_isDigit (repr_digits c ch hch))

/-- Listener identifiers agree only if their counters agree. -/
theorem genListenerId_inj_counter {n1 c1 n2 c2 : ℕ}
    (h : genListenerId n1 c1 = genListenerId n2 c2) : c1 = c2 := by
  have h1 := lastSegment_genListenerId n1 c1
  have h2 := lastSegment_genListenerId n2 c2
  have hdata : (genListenerId n1 c1).data = (genListenerId n2 c2).data := by rw [h]
  have hrepr : (Nat.repr c1).data = (Nat.repr c2).data := by
    rw [← h1, ← h2, hdata]
  exact repr_injective (String.ext hrepr)

/-! ## Registry invariant -/

/-- `Map.set` with a fresh key appends. -/
theorem mapSet_fresh (l : List (String × LinkPoller)) (k : String) (v : LinkPoller)
    (h : k ∉ l.map Prod.fst) : mapSet l k v = l ++ [(k, v)] := by
  have ha : l.any (fun e => e.1 = k) = false := by
    rw [List.any_eq_false]
    intro e he
    simp only [decide_eq_true_eq]
    exact fun heq => h (List.mem_map.mpr ⟨e, he, heq⟩)
  simp [mapSet, ha]

/-- Deleting a fresh key that was just appended restores the list. -/
theorem mapDelete_append_fresh (l : List (String × LinkPoller)) (k : String)
    (v : LinkPoller) (h : k ∉ l.map Prod.fst) : mapDelete (l ++ [(k, v)]) k = l := by
  simp only [mapDelete, List.filter_append]
  have h1 : l.filter (fun e => ¬ e.1 = k) = l := by
    rw [List.filter_eq_self]
    intro e he
    simp only [decide_eq_true_eq]
    exact fun heq => h (List.mem_map.mpr ⟨e, he, heq⟩)
  have h2 : [(k, v)].filter (fun e => ¬ e.1 = k) = [] := by simp
  rw [h1, h2, List.append_nil]

/-- The keys of `Map.delete` form a sublist of the original keys. -/
theorem mapDelete_keys_sublist (l : List (String × LinkPoller)) (k : String) :
    ((mapDelete l k).map Prod.fst).Sublist (l.map Prod.fst) :=
  (List.filter_sublist l).map Prod.fst

/-- A bound on the allocating counter can be weakened upward. -/
theorem IdFromCounter_mono {b1 b2 : ℕ} (h : b1 ≤ b2) {s : String} :
    IdFromCounter b1 s → IdFromCounter b2 s := by
  rintro ⟨n, c, rfl, h1, h2⟩
  exact ⟨n, c, rfl, h1, le_trans h2 h⟩

/-- An identifier allocated above the invariant bound is absent from the
table. -/
theorem fresh_id_not_mem (st : SDKState) (h : StInv st) (now : ℕ) {c : ℕ}
    (hc : st.listenerCounter < c) :
    genListenerId now c ∉ st.activeListeners.map Prod.fst := by
  intro hmem
  obtain ⟨n2, c2, heq, -, hle⟩ := h.2 _ hmem
  have : c = c2 := genListenerId_inj_counter heq
  omega

/-- `startListening` equation: validation threw. -/
theorem startListening_error_eq (cfg : SDKConfig) (st : SDKState) (url : String)
    (now : ℕ) (cid : String) (ok1 : Bool) (e : String)
    (hv : SecretLinksSDK.validateLink cfg url = Except.error e) :
    SecretLinksSDK.startListening cfg st url now cid ok1 = (st, Except.error e) := by
  simp only [SecretLinksSDK.startListening, hv]

/-- `startListening` equation: validation returned an invalid descriptor. -/
theorem startListening_invalid_eq (cfg : SDKConfig) (st : SDKState) (url : String)
    (now : ℕ) (cid : String) (ok1 : Bool) (linkInfo : LinkInfo)
    (hv : SecretLinksSDK.validateLink cfg url = Except.ok linkInfo)
    (hval : linkInfo.isValid = false) :
    SecretLinksSDK.startListening cfg st url now cid ok1
      = (st, Except.error "Invalid Secret Link URL") := by
  simp only [SecretLinksSDK.startListening, hv]
  rw [if_pos hval]

/-- `startListening` equation: valid descriptor, `start()` resolves — the
new poller is registered under the identifier generated from the
incremented counter. -/
theorem startListening_started_eq (cfg : SDKConfig) (st : SDKState) (url : String)
    (now : ℕ) (cid : String) (linkInfo : LinkInfo)
    (hv : SecretLinksSDK.validateLink cfg url = Except.ok linkInfo)
    (hval : ¬ linkInfo.isValid = false) :
    SecretLinksSDK.startListening cfg st url now cid true
      = ({ listenerCounter := st.listenerCounter + 1,
           activeListeners := mapSet st.activeListeners
             (genListenerId now (st.listenerCounter + 1))
             (SecretLinksSDK.buildPoller cfg linkInfo cid).start },
         Except.ok (genListenerId now (st.listenerCounter + 1))) := by
  simp only [SecretLinksSDK.startListening, hv]
  rw [if_neg hval]
  simp

/-- `startListening` equation: valid descriptor, `start()` rejects — the
just-registered entry is removed again and the error propagates. -/
theorem startListening_failed_eq (cfg : SDKConfig) (st : SDKState) (url : String)
    (now : ℕ) (cid : String) (linkInfo : LinkInfo)
    (hv : SecretLinksSDK.validateLink cfg url = Except.ok linkInfo)
    (hval : ¬ linkInfo.isValid = false) :
    SecretLinksSDK.startListening cfg st url now cid false
      = ({ listenerCounter := st.listenerCounter + 1,
           activeListeners := mapDelete
             (mapSet st.activeListeners
               (genListenerId now (st.listenerCounter + 1))
               (SecretLinksSDK.buildPoller cfg linkInfo cid))
             (genListenerId now (st.listenerCounter + 1)) },
         Except.error "start failed") := by
  simp only [SecretLinksSDK.startListening, hv]
  rw [if_neg hval]
  simp

/-- Effect of one registry operation: the table invariant is preserved, the
listener counter never decreases, and a successful `startListening` returns
exactly the identifier generated from the new counter value. -/
theorem runOp_preserves (cfg : SDKConfig) (st : SDKState) (op : RegOp)
    (h : StInv st) :
    StInv (SecretLinksSDK.runOp cfg st op).1 ∧
    st.listenerCounter ≤ (SecretLinksSDK.runOp cfg st op).1.listenerCounter ∧
    ∀ s, (SecretLinksSDK.runOp cfg st op).2 = some s →
      (∃ n, s = genListenerId n (SecretLinksSDK.runOp cfg st op).1.listenerCounter) ∧
      st.listenerCounter < (SecretLinksSDK.runOp cfg st op).1.listenerCounter := by
  cases op with
  | startL url now cid ok1 =>
    cases hv : SecretLinksSDK.validateLink cfg url with
    | error e =>
      have hop : SecretLinksSDK.runOp cfg st (RegOp.startL url now cid ok1)
          = (st, none) := by
        simp only [SecretLinksSDK.runOp,
          startListening_error_eq cfg st url now cid ok1 e hv, Except.toOption]
      rw [hop]
      exact ⟨h, le_refl _, fun s hs => Option.noConfusion hs⟩
    | ok linkInfo =>
      by_cases hval : linkInfo.isValid = false
      · have hop : SecretLinksSDK.runOp cfg st (RegOp.startL url now cid ok1)
            = (st, none) := by
          simp only [SecretLinksSDK.runOp,
            startListening_invalid_eq cfg st url now cid ok1 linkInfo hv hval,
            Except.toOption]
        rw [hop]
        exact ⟨h, le_refl _, fun s hs => Option.noConfusion hs⟩
      · have hfresh :
            genListenerId now (st.listenerCounter + 1) ∉ st.activeListeners.map Prod.fst :=
          fresh_id_not_mem st h now (Nat.lt_succ_self _)
        cases ok1 with
        | true =>
          have hsl := startListening_started_eq cfg st url now cid linkInfo hv hval
          have hop : SecretLinksSDK.runOp cfg st (RegOp.startL url now cid true)
              = ({ listenerCounter := st.listenerCounter + 1,
                   activeListeners := mapSet st.activeListeners
                     (genListenerId now (st.listenerCounter + 1))
                     (SecretLinksSDK.buildPoller cfg linkInfo cid).start },
                 some (genListenerId now (st.listenerCounter + 1))) := by
            simp only [SecretLinksSDK.runOp, hsl, Except.toOption]
          rw [hop]
          rw [mapSet_fresh _ _ _ hfresh]
          refine ⟨⟨?_, ?_⟩, Nat.le_succ _, ?_⟩
          · simp only [List.map_append, List.map_cons, List.map_nil]
            rw [List.nodup_append]
            refine ⟨h.1, List.nodup_singleton _, ?_⟩
            intro a ha hb
            simp only [List.mem_singleton] at hb
            exact hfresh (hb ▸ ha)
          · intro k hk
            simp only [List.map_append, List.map_cons, List.map_nil,
              List.mem_append, List.mem_singleton] at hk
            rcases hk with hk | hk
            · exact IdFromCounter_mono (Nat.le_succ _) (h.2 k hk)
            · exact ⟨now, st.listenerCounter + 1, hk, by omega, le_refl _⟩
          · intro s hs
            simp only [Option.some_inj] at hs
            exact ⟨⟨now, hs.symm⟩, Nat.lt_succ_self _⟩
        | false =>
          have hsl := startListening_failed_eq cfg st url now cid linkInfo hv hval
          have hop : SecretLinksSDK.runOp cfg st (RegOp.startL url now cid false)
              = ({ listenerCounter := st.listenerCounter + 1,
                   activeListeners := mapDelete
                     (mapSet st.activeListeners
                       (genListenerId now (st.listenerCounter + 1))
                       (SecretLinksSDK.buildPoller cfg linkInfo cid))
                     (genListenerId now (st.listenerCounter + 1)) },
                 none) := by
            simp only [SecretLinksSDK.runOp, hsl, Except.toOption]
          rw [hop]
          rw [mapSet_fresh _ _ _ hfresh, mapDelete_append_fresh _ _ _ hfresh]
          exact ⟨⟨h.1, fun k hk => IdFromCounter_mono (Nat.le_succ _) (h.2 k hk)⟩,
            Nat.le_succ _, fun s hs => Option.noConfusion hs⟩
  | stopL listenerId =>
    have hop : SecretLinksSDK.runOp cfg st (RegOp.stopL listenerId)
        = (SecretLinksSDK.stopListening st listenerId, none) := rfl
    rw [hop]
    cases hg : mapGet st.activeListeners listenerId with
    | none =>
      have hstop : SecretLinksSDK.stopListening st listenerId = st := by
        simp only [SecretLinksSDK.stopListening, hg]
      rw [hstop]
      exact ⟨h, le_refl _, fun s hs => Option.noConfusion hs⟩
    | some poller =>
      have hstop : SecretLinksSDK.stopListening st listenerId
          = { st with activeListeners := mapDelete st.activeListeners listenerId } := by
        simp only [SecretLinksSDK.stopListening, hg]
      rw [hstop]
      refine ⟨⟨h.1.sublist (mapDelete_keys_sublist _ _), ?_⟩, le_refl _,
        fun s hs => Option.noConfusion hs⟩
      intro k hk
      exact h.2 k ((mapDelete_keys_sublist _ _).subset hk)
  | stopAllOp =>
    have hop : SecretLinksSDK.runOp cfg st RegOp.stopAllOp
        = (SecretLinksSDK.stopAll st, none) := rfl
    rw [hop]
    exact ⟨⟨List.nodup_nil, fun k hk => absurd hk (by simp [SecretLinksSDK.stopAll])⟩,
      le_refl _, fun s hs => Option.noConfusion hs⟩

/-- Effect of a trace of registry operations: the invariant is preserved,
the counter never decreases, the allocated identifiers are pairwise
distinct, and each was generated from a counter value strictly above the
starting counter and at most the final one. -/
theorem run_preserves (cfg : SDKConfig) :
    ∀ (ops : List RegOp) (st : SDKState), StInv st →
      StInv (SecretLinksSDK.run cfg st ops).1 ∧
      st.listenerCounter ≤ (SecretLinksSDK.run cfg st ops).1.listenerCounter ∧
      (SecretLinksSDK.run cfg st ops).2.Nodup ∧
      ∀ s ∈ (SecretLinksSDK.run cfg st ops).2, ∃ n c, s = genListenerId n c ∧
        st.listenerCounter < c ∧
        c ≤ (SecretLinksSDK.run cfg st ops).1.listenerCounter := by
  intro ops
  induction ops with
  | nil =>
    intro st h
    exact ⟨h, le_refl _, List.nodup_nil, by simp [SecretLinksSDK.run]⟩
  | cons op ops ih =>
    intro st h
    obtain ⟨h1, hmono1, halloc⟩ := runOp_preserves cfg st op h
    obtain ⟨h2, hmono2, hnodup, hids⟩ := ih (SecretLinksSDK.runOp cfg st op).1 h1
    have hrun : SecretLinksSDK.run cfg st (op :: ops)
        = ((SecretLinksSDK.run cfg (SecretLinksSDK.runOp cfg st op).1 ops).1,
           (SecretLinksSDK.runOp cfg st op).2.toList
             ++ (SecretLinksSDK.run cfg (SecretLinksSDK.runOp cfg st op).1 ops).2) := by
      simp [SecretLinksSDK.run]
    rw [hrun]
    refine ⟨h2, le_trans hmono1 hmono2, ?_, ?_⟩
    · cases hr : (SecretLinksSDK.runOp cfg st op).2 with
      | none => simpa using hnodup
      | some s =>
        obtain ⟨⟨n, rfl⟩, hstrict⟩ := halloc s hr
        simp only [Option.toList_some, List.singleton_append, List.nodup_cons]
        refine ⟨?_, hnodup⟩
        intro hmem
        obtain ⟨n2, c2, heq, hgt, -⟩ := hids _ hmem
        have := genListenerId_inj_counter heq
        omega
    · intro s hs
      simp only [List.mem_append] at hs
      rcases hs with hs | hs
      · cases hr : (SecretLinksSDK.runOp cfg st op).2 with
        | none => rw [hr] at hs; simp at hs
        | some s2 =>
          rw [hr] at hs
          simp only [Option.toList_some, List.mem_singleton] at hs
          subst hs
          obtain ⟨⟨n, rfl⟩, hstrict⟩ := halloc s hr
          exact ⟨n, _, rfl, hstrict, hmono2⟩
      · obtain ⟨n, c, rfl, hgt, hle⟩ := hids s hs
        exact ⟨n, c, rfl, by omega, hle⟩

/-- C7: over every trace of registry operations from a fresh SDK instance,
the identifiers allocated by successful `startListening` calls are pairwise
distinct — so an identifier removed by `stopListening`, `stopAll`, or
self-termination is never assigned again — and the listener table never
holds two entries with the same identifier. -/
theorem listener_ids_never_reused (cfg : SDKConfig) (ops : List RegOp) :
    ((SecretLinksSDK.run cfg SDKState.initial ops).2.Nodup) ∧
    (((SecretLinksSDK.run cfg SDKState.initial ops).1.activeListeners.map
        Prod.fst).Nodup) := by
  have hinit : StInv SDKState.initial := ⟨List.nodup_nil, by simp [SDKState.initial]⟩
  obtain ⟨hfin, -, hnodup, -⟩ := run_preserves cfg ops SDKState.initial hinit
  exact ⟨hnodup, hfin.1⟩

end SecretLinks
